import Mathlib

/-!
Verification of the CSV cleaning pipeline of data-refine-studio.

The repository contains two revisions of the utility module (the file
src/utils/csvUtils.ts and a later revision of it): namespace CsvUtils
embeds the former, namespace CsvUtilsV2 the latter.  The pipeline runner
(the cleanData handler of the CleaningOptions component) is embedded in
namespace Cleaning.

Tables are lists of rows, rows are lists of cell strings, exactly as in
the source (string[][]).  JavaScript string primitives used by the code
(trim, toLowerCase, split, includes, Number coercion) are modelled below
on explicit character lists so that every definition evaluates by kernel
reduction.
-/

/-- Whitespace characters removed by the JavaScript String.prototype.trim:
tab, line feed, vertical tab, form feed, carriage return, space,
no-break space, BOM, line separator, paragraph separator. -/
def isJsWhitespace (c : Char) : Bool :=
  c = ' ' || c = '\t' || c = '\n' || c = '\r' ||
  c = '\x0b' || c = '\x0c' || c = ' ' ||
  c = ' ' || c = ' ' || c = '﻿'

/-- Model of the JavaScript String.prototype.trim. -/
def jsTrim (s : String) : String :=
  String.mk (((s.data.dropWhile isJsWhitespace).reverse.dropWhile isJsWhitespace).reverse)

/-- Model of the JavaScript String.prototype.toLowerCase (ASCII range,
which is all the repository manipulates). -/
def jsToLower (s : String) : String :=
  String.mk (s.data.map Char.toLower)

/-- Model of the JavaScript String.prototype.includes for a single
character needle. -/
def jsIncludes (s : String) (c : Char) : Bool :=
  s.data.contains c

/-- Splitting a character list at every occurrence of the separator
character; models the JavaScript String.prototype.split with a
one-character separator string.  The result is always non-empty. -/
def splitOnChar (c : Char) : List Char → List (List Char)
  | [] => [[]]
  | x :: rest =>
    if x = c then [] :: splitOnChar c rest
    else
      match splitOnChar c rest with
      | [] => [[x]]
      | l :: ls => (x :: l) :: ls

/-- Model of the JavaScript split(delim) for a one-character delimiter. -/
def jsSplit (s : String) (c : Char) : List String :=
  (splitOnChar c s.data).map String.mk

/-- Splitting a character list on line boundaries; models the JavaScript
split on the pattern carriage-return-optional followed by line-feed,
which both revisions of parseCSV use.  The result is always non-empty. -/
def jsSplitLinesAux : List Char → List (List Char)
  | [] => [[]]
  | '\r' :: '\n' :: rest => [] :: jsSplitLinesAux rest
  | '\n' :: rest => [] :: jsSplitLinesAux rest
  | c :: rest =>
    match jsSplitLinesAux rest with
    | [] => [[c]]
    | l :: ls => (c :: l) :: ls

/-- Model of the JavaScript line splitting used by parseCSV. -/
def jsLines (s : String) : List String :=
  (jsSplitLinesAux s.data).map String.mk

/-- Decimal digit run, at least one digit. -/
def digits1 (l : List Char) : Bool :=
  !l.isEmpty && l.all (·.isDigit)

/-- Exponent digits with an optional sign, as in the ECMAScript string
numeric literal grammar. -/
def signedDigits1 : List Char → Bool
  | '+' :: r => digits1 r
  | '-' :: r => digits1 r
  | r => digits1 r

/-- Optional exponent part of an ECMAScript decimal literal. -/
def expOk : List Char → Bool
  | [] => true
  | 'e' :: r => signedDigits1 r
  | 'E' :: r => signedDigits1 r
  | _ => false

/-- Unsigned ECMAScript decimal literal: digits, optionally a decimal
point with digits on at least one side, optionally an exponent. -/
def decOk (l : List Char) : Bool :=
  let p := l.span (·.isDigit)
  match p.2 with
  | '.' :: r2 =>
    let q := r2.span (·.isDigit)
    (!p.1.isEmpty || !q.1.isEmpty) && expOk q.2
  | _ => !p.1.isEmpty && expOk p.2

/-- Hexadecimal digit. -/
def isHexDigit (c : Char) : Bool :=
  c.isDigit || ('a' ≤ c && c ≤ 'f') || ('A' ≤ c && c ≤ 'F')

/-- Model of the ECMAScript ToNumber coercion on strings, restricted to
the question the code asks: does Number(s) produce a non-NaN value?
The empty and whitespace-only strings coerce to zero, hence count as
numeric.  Radix-prefixed literals admit no sign. -/
def jsIsNumeric (s : String) : Bool :=
  match (jsTrim s).data with
  | [] => true
  | '+' :: r => r = "Infinity".data || decOk r
  | '-' :: r => r = "Infinity".data || decOk r
  | '0' :: 'x' :: r => !r.isEmpty && r.all isHexDigit
  | '0' :: 'X' :: r => !r.isEmpty && r.all isHexDigit
  | '0' :: 'o' :: r => !r.isEmpty && r.all (fun c => '0' ≤ c && c ≤ '7')
  | '0' :: 'O' :: r => !r.isEmpty && r.all (fun c => '0' ≤ c && c ≤ '7')
  | '0' :: 'b' :: r => !r.isEmpty && r.all (fun c => c = '0' || c = '1')
  | '0' :: 'B' :: r => !r.isEmpty && r.all (fun c => c = '0' || c = '1')
  | l => l = "Infinity".data || decOk l

/-- A table as the source manipulates it: string[][]. -/
abbrev Table := List (List String)

namespace CsvUtils

/-- Embedding of parseCSV from src/utils/csvUtils.ts: split on newlines,
drop blank lines, split every line on a comma, trim every cell. -/
def parseCSV (csvContent : String) : Table × List String :=
  let lines := (jsLines csvContent).filter (fun line => jsTrim line ≠ "")
  match lines with
  | [] => ([], [])
  | first :: rest =>
    let headers := (jsSplit first ',').map jsTrim
    let data := rest.map (fun line => (jsSplit line ',').map jsTrim)
    (data, headers)

/-- Embedding of removeDuplicates from src/utils/csvUtils.ts.  The code
keys rows by JSON.stringify(row), which is injective on string arrays,
so the seen set is modelled as a list of the rows themselves. -/
def removeDuplicatesAux : Table → Table → Table
  | [], _ => []
  | row :: rest, seen =>
    if row ∈ seen then removeDuplicatesAux rest seen
    else row :: removeDuplicatesAux rest (row :: seen)

/-- Embedding of removeDuplicates from src/utils/csvUtils.ts: keep the
first occurrence of every exact row, count = length difference. -/
def removeDuplicates (data : Table) : Table × Nat :=
  let uniqueData := removeDuplicatesAux data []
  (uniqueData, data.length - uniqueData.length)

/-- Embedding of trimWhitespace from src/utils/csvUtils.ts: trim every
cell, count the cells whose trimmed form differs. -/
def trimWhitespace (data : Table) : Table × Nat :=
  (data.map (fun row => row.map jsTrim),
   (data.map (fun row =>
     (row.filter (fun cell => jsTrim cell ≠ cell)).length)).sum)

/-- Embedding of standardizeCase (identical in both revisions): lowercase
every cell that is non-empty and for which isNaN(Number(cell)) holds. -/
def standardizeCase (data : Table) (_headers : List String) : Table :=
  data.map (fun row =>
    row.map (fun cell =>
      if !jsIsNumeric cell && cell ≠ "" then jsToLower cell else cell))

/-- Embedding of removeEmptyRows from src/utils/csvUtils.ts: keep a row
when some cell trims to a non-empty string. -/
def removeEmptyRows (data : Table) : Table × Nat :=
  let filteredData := data.filter (fun row => row.any (fun cell => jsTrim cell ≠ ""))
  (filteredData, data.length - filteredData.length)

end CsvUtils

namespace CsvUtilsV2

/-- Embedding of parseCSV from the later revision of csvUtils.ts: the
delimiter is a semicolon when the first raw line (before blank-line
filtering) contains one, else a comma; every line is split on it. -/
def parseCSV (csvContent : String) : Table × List String :=
  let firstLine := ((jsLines csvContent).headD "")
  let delimiter := if jsIncludes firstLine ';' then ';' else ','
  let lines := (jsLines csvContent).filter (fun line => jsTrim line ≠ "")
  match lines with
  | [] => ([], [])
  | first :: rest =>
    let headers := (jsSplit first delimiter).map jsTrim
    let data := rest.map (fun line => (jsSplit line delimiter).map jsTrim)
    (data, headers)

/-- The normalized key the later removeDuplicates builds for a row:
every cell trimmed and lowercased, cells joined with a pipe.  The code
guards each cell with (cell or the empty string), which is the identity
on strings since only the empty string is falsy and it maps to itself. -/
def normalizedKey (row : List String) : String :=
  String.intercalate "|" (row.map (fun cell => jsToLower (jsTrim cell)))

/-- Loop of the later removeDuplicates: the Map of seen signatures is
modelled as the list of keys inserted so far (only membership is ever
queried), and the running duplicate count is the second component. -/
def removeDuplicatesAux : Table → List String → Table × Nat
  | [], _ => ([], 0)
  | row :: rest, seen =>
    if normalizedKey row ∈ seen then
      let r := removeDuplicatesAux rest seen
      (r.1, r.2 + 1)
    else
      let r := removeDuplicatesAux rest (normalizedKey row :: seen)
      (row :: r.1, r.2)

/-- Embedding of removeDuplicates from the later revision of
csvUtils.ts: keep the first row of each normalized signature, drop and
count later rows with a seen signature. -/
def removeDuplicates (data : Table) : Table × Nat :=
  removeDuplicatesAux data []

/-- Cell step of the later trimWhitespace.  Cells are string-or-null as
the code defends against; a falsy cell (null, undefined, or the empty
string, via the check on (not cell)) is returned as is and never
counted; otherwise the cell is trimmed and counted when it changed. -/
def trimCell : Option String → Option String × Nat
  | none => (none, 0)
  | some cell =>
    if cell = "" then (some cell, 0)
    else
      let trimmed := jsTrim cell
      (some trimmed, if trimmed ≠ cell then 1 else 0)

/-- Embedding of trimWhitespace from the later revision of csvUtils.ts
over tables whose cells may be null. -/
def trimWhitespace (data : List (List (Option String))) :
    List (List (Option String)) × Nat :=
  (data.map (fun row => row.map (fun cell => (trimCell cell).1)),
   (data.map (fun row => (row.map (fun cell => (trimCell cell).2)).sum)).sum)

/-- Embedding of removeEmptyRows from the later revision of csvUtils.ts:
keep a row when its first cell (the name column) trims to a non-empty
string; a missing first cell counts as empty. -/
def removeEmptyRows (data : Table) : Table × Nat :=
  let filteredData := data.filter (fun row => jsTrim (row.headD "") ≠ "")
  (filteredData, data.length - filteredData.length)

end CsvUtilsV2

namespace Cleaning

/-- The option switches of the CleaningOptions component. -/
structure CleaningOptions where
  removeDuplicates : Bool
  trimWhitespace : Bool
  standardizeCase : Bool
  removeEmptyRows : Bool
deriving DecidableEq, Repr

/-- The statistics record one pipeline run publishes. -/
structure CleaningStats where
  duplicatesRemoved : Nat
  whitespaceFixed : Nat
  emptyRowsRemoved : Nat
deriving DecidableEq, Repr

/-- Embedding of the cleanData handler of the CleaningOptions component:
sequentially rebind the table and fill the statistics, each stage
guarded by its option flag, in the fixed source order removeEmptyRows,
removeDuplicates, trimWhitespace, standardizeCase.  The transform
library is the one the component imports (namespace CsvUtils). -/
def cleanData (options : CleaningOptions) (headers : List String)
    (data : Table) : Table × CleaningStats :=
  let stats0 : CleaningStats := ⟨0, 0, 0⟩
  let step1 :=
    if options.removeEmptyRows then
      let r := CsvUtils.removeEmptyRows data
      (r.1, { stats0 with emptyRowsRemoved := r.2 })
    else (data, stats0)
  let step2 :=
    if options.removeDuplicates then
      let r := CsvUtils.removeDuplicates step1.1
      (r.1, { step1.2 with duplicatesRemoved := r.2 })
    else step1
  let step3 :=
    if options.trimWhitespace then
      let r := CsvUtils.trimWhitespace step2.1
      (r.1, { step2.2 with whitespaceFixed := r.2 })
    else step2
  let step4 :=
    if options.standardizeCase then
      (CsvUtils.standardizeCase step3.1 headers, step3.2)
    else step3
  step4

/-- The state the component publishes to: the visible current table and
the last published statistics (none before any successful run). -/
structure AppState where
  current : Table
  stats : Option CleaningStats
deriving DecidableEq, Repr

/-- The body of the try block of cleanData, with each transform given as
a fallible function so that a thrown exception is representable: the
stages run in the fixed source order and the first error aborts the
rest, exactly as a thrown exception leaves the try block. -/
def runPipelineE (t1 t2 t3 : Table → Except String (Table × Nat))
    (t4 : Table → Except String Table) (options : CleaningOptions)
    (data : Table) : Except String (Table × CleaningStats) := do
  let stats0 : CleaningStats := ⟨0, 0, 0⟩
  let step1 ←
    if options.removeEmptyRows then do
      let r ← t1 data
      pure (r.1, { stats0 with emptyRowsRemoved := r.2 })
    else pure (data, stats0)
  let step2 ←
    if options.removeDuplicates then do
      let r ← t2 step1.1
      pure (r.1, { step1.2 with duplicatesRemoved := r.2 })
    else pure step1
  let step3 ←
    if options.trimWhitespace then do
      let r ← t3 step2.1
      pure (r.1, { step2.2 with whitespaceFixed := r.2 })
    else pure step2
  if options.standardizeCase then do
    let d ← t4 step3.1
    pure (d, step3.2)
  else pure step3

/-- Embedding of the try/catch of cleanData around the state updates:
on success the new table and statistics are published through setStats
and onDataCleaned; on an exception the catch block only reports the
error text and the visible state is left untouched. -/
def cleanDataE (t1 t2 t3 : Table → Except String (Table × Nat))
    (t4 : Table → Except String Table) (options : CleaningOptions)
    (st : AppState) (data : Table) : AppState × Option String :=
  match runPipelineE t1 t2 t3 t4 options data with
  | Except.ok r => ({ current := r.1, stats := some r.2 }, none)
  | Except.error e => (st, some e)

end Cleaning

/-- Follows the words of the spec: parsing with a fixed delimiter
splits the text on line boundaries, discards blank lines, and splits
the header line and every data line on that single delimiter, trimming
each cell. -/
def specParseWith (delimiter : Char) (csvContent : String) : Table × List String :=
  match (jsLines csvContent).filter (fun line => jsTrim line ≠ "") with
  | [] => ([], [])
  | first :: rest =>
    (rest.map (fun line => (jsSplit line delimiter).map jsTrim),
     (jsSplit first delimiter).map jsTrim)

/-- Follows the words of the spec: the first row of each normalized
signature is kept unchanged and every later row with the same signature
is dropped. -/
def specDedup : Table → Table
  | [] => []
  | row :: rest =>
    row :: specDedup (rest.filter
      (fun r2 => CsvUtilsV2.normalizedKey r2 ≠ CsvUtilsV2.normalizedKey row))
termination_by d => d.length
decreasing_by exact Nat.lt_succ_of_le (List.length_filter_le _ _)

/-- Follows the words of the spec: a cell that is non-empty and does
not parse as a number is replaced by its lowercase form; a numeric
looking cell and the empty cell are left unchanged. -/
def specCaseCell (cell : String) : String :=
  if cell ≠ "" ∧ ¬ jsIsNumeric cell then jsToLower cell else cell

namespace Cleaning

/-- Stage of the fixed pipeline order: empty-row removal when its flag
is set, identity otherwise. -/
def applyEmptyStage (flag : Bool) (ts : Table × CleaningStats) : Table × CleaningStats :=
  if flag then
    let r := CsvUtils.removeEmptyRows ts.1
    (r.1, { ts.2 with emptyRowsRemoved := r.2 })
  else ts

/-- Stage of the fixed pipeline order: duplicate removal when its flag
is set, identity otherwise. -/
def applyDedupStage (flag : Bool) (ts : Table × CleaningStats) : Table × CleaningStats :=
  if flag then
    let r := CsvUtils.removeDuplicates ts.1
    (r.1, { ts.2 with duplicatesRemoved := r.2 })
  else ts

/-- Stage of the fixed pipeline order: whitespace trimming when its
flag is set, identity otherwise. -/
def applyTrimStage (flag : Bool) (ts : Table × CleaningStats) : Table × CleaningStats :=
  if flag then
    let r := CsvUtils.trimWhitespace ts.1
    (r.1, { ts.2 with whitespaceFixed := r.2 })
  else ts

/-- Stage of the fixed pipeline order: case standardization when its
flag is set, identity otherwise; contributes no statistic. -/
def applyCaseStage (flag : Bool) (headers : List String)
    (ts : Table × CleaningStats) : Table × CleaningStats :=
  if flag then (CsvUtils.standardizeCase ts.1 headers, ts.2) else ts

/-- Follows the words of the spec: the four optional stages composed in
the fixed order removeEmptyRows, removeDuplicates, trimWhitespace,
standardizeCase, starting from zero statistics. -/
def stagedClean (options : CleaningOptions) (headers : List String)
    (data : Table) : Table × CleaningStats :=
  applyCaseStage options.standardizeCase headers
    (applyTrimStage options.trimWhitespace
      (applyDedupStage options.removeDuplicates
        (applyEmptyStage options.removeEmptyRows (data, ⟨0, 0, 0⟩))))

end Cleaning

lemma any_trim_ne_eq_not_all (row : List String) :
    (row.any fun cell => jsTrim cell ≠ "") = !(row.all fun cell => jsTrim cell = "") := by
  induction row with
  | nil => rfl
  | cons a l ih =>
    simp only [List.any_cons, List.all_cons, Bool.not_and, decide_not] at ih ⊢
    rw [ih]

lemma filter_length_sub_add (p : List String → Bool) (l : Table) :
    l.length - (l.filter p).length + (l.filter p).length = l.length :=
  Nat.sub_add_cancel (List.length_filter_le p l)

/-- Claim C3: removeEmptyRows follows policy (a): a row is removed
exactly when every one of its cells trims to the empty string, the
survivors are returned unchanged in order, and the count is the number
of rows removed; the concrete example of the spec holds. -/
theorem removeEmptyRows_policy_a (d : Table) :
    (CsvUtils.removeEmptyRows d).1
      = d.filter (fun row => !(row.all fun cell => jsTrim cell = ""))
    ∧ (CsvUtils.removeEmptyRows d).2 + (CsvUtils.removeEmptyRows d).1.length = d.length
    ∧ CsvUtils.removeEmptyRows [["", ""], ["x", "y"]] = ([["x", "y"]], 1) := by
  refine ⟨?_, ?_, by decide⟩
  · show d.filter _ = d.filter _
    exact List.filter_congr (fun row _ => any_trim_ne_eq_not_all row)
  · exact filter_length_sub_add _ d

/-- Claim C7: standardizeCase lowercases exactly the cells that are
non-empty and do not parse as a number, leaves numeric-looking and
empty cells unchanged, and preserves the shape of the table (it
returns only the new table; the embedding carries no count). -/
theorem standardizeCase_cell_rule (d : Table) (headers : List String) :
    CsvUtils.standardizeCase d headers = d.map (fun row => row.map specCaseCell)
    ∧ (CsvUtils.standardizeCase d headers).map List.length = d.map List.length := by
  have hc : ∀ c : String,
      (if !jsIsNumeric c && c ≠ "" then jsToLower c else c) = specCaseCell c := by
    intro c
    unfold specCaseCell
    by_cases h1 : jsIsNumeric c <;> by_cases h2 : c = "" <;> simp [h1, h2]
  have h1 : CsvUtils.standardizeCase d headers = d.map (fun row => row.map specCaseCell) := by
    unfold CsvUtils.standardizeCase
    simp only [hc]
  refine ⟨h1, ?_⟩
  rw [h1]
  simp [List.map_map, Function.comp]

/-- Claim C8: parsing is total in the embedding, and when the input has
no non-blank line both revisions of parseCSV return empty headers and
an empty table instead of signaling an error. -/
theorem parseCSV_soft_fail (text : String)
    (h : ((jsLines text).all fun line => jsTrim line = "") = true) :
    CsvUtils.parseCSV text = ([], []) ∧ CsvUtilsV2.parseCSV text = ([], []) := by
  have hf : List.filter (fun line => !decide (jsTrim line = "")) (jsLines text) = [] := by
    rw [List.filter_eq_nil_iff]
    intro a ha
    have h2 := List.all_eq_true.mp h a ha
    simp at h2 ⊢
    exact h2
  constructor <;> simp [CsvUtils.parseCSV, CsvUtilsV2.parseCSV, hf]

/-- Witness for claim C8 at the whitespace-only input of one blank and
one space-only line. -/
theorem parseCSV_soft_fail_witness :
    CsvUtils.parseCSV "  \n " = ([], []) ∧ CsvUtilsV2.parseCSV "  \n " = ([], []) :=
  parseCSV_soft_fail "  \n " (by decide)

/-- Claim C9: when any transform of the pipeline run fails, the error
is reported to the caller and the visible state (current table and
published statistics) is exactly what it was before the run. -/
theorem cleanDataE_atomic_on_error
    (t1 t2 t3 : Table → Except String (Table × Nat))
    (t4 : Table → Except String Table) (options : Cleaning.CleaningOptions)
    (st : Cleaning.AppState) (data : Table) (e : String)
    (h : (Cleaning.cleanDataE t1 t2 t3 t4 options st data).2 = some e) :
    (Cleaning.cleanDataE t1 t2 t3 t4 options st data).1 = st := by
  unfold Cleaning.cleanDataE at h ⊢
  cases hr : Cleaning.runPipelineE t1 t2 t3 t4 options data with
  | error e2 => simp [hr]
  | ok r => simp [hr] at h

/-- Witness for claim C9: a first transform that throws leaves the
prior state untouched. -/
theorem cleanDataE_atomic_on_error_witness :
    (Cleaning.cleanDataE (fun _ => Except.error "boom")
      (fun d => Except.ok (d, 0)) (fun d => Except.ok (d, 0))
      (fun d => Except.ok d) ⟨true, true, true, true⟩
      ⟨[["a"]], none⟩ [["b"]]).1 = ⟨[["a"]], none⟩ :=
  cleanDataE_atomic_on_error _ _ _ _ _ _ _ "boom" rfl

lemma dedupAux_fst (d : Table) (seen : List String) :
    (CsvUtilsV2.removeDuplicatesAux d seen).1
      = specDedup (d.filter (fun row => CsvUtilsV2.normalizedKey row ∉ seen)) := by
  induction d generalizing seen with
  | nil => simp [CsvUtilsV2.removeDuplicatesAux, specDedup]
  | cons row rest ih =>
    by_cases hk : CsvUtilsV2.normalizedKey row ∈ seen
    · have h1 : (CsvUtilsV2.removeDuplicatesAux (row :: rest) seen).1
          = (CsvUtilsV2.removeDuplicatesAux rest seen).1 := by
        simp [CsvUtilsV2.removeDuplicatesAux, hk]
      have h2 : (row :: rest).filter (fun r => CsvUtilsV2.normalizedKey r ∉ seen)
          = rest.filter (fun r => CsvUtilsV2.normalizedKey r ∉ seen) := by
        simp [hk]
      rw [h1, h2, ih]
    · have h1 : (CsvUtilsV2.removeDuplicatesAux (row :: rest) seen).1
          = row :: (CsvUtilsV2.removeDuplicatesAux rest
              (CsvUtilsV2.normalizedKey row :: seen)).1 := by
        simp [CsvUtilsV2.removeDuplicatesAux, hk]
      have h2 : (row :: rest).filter (fun r => CsvUtilsV2.normalizedKey r ∉ seen)
          = row :: rest.filter (fun r => CsvUtilsV2.normalizedKey r ∉ seen) := by
        simp [hk]
      rw [h1, h2, ih]
      conv_rhs => rw [specDedup]
      congr 1
      rw [List.filter_filter]
      congr 1
      apply List.filter_congr
      intro a _
      by_cases ha1 : CsvUtilsV2.normalizedKey a = CsvUtilsV2.normalizedKey row <;>
        by_cases ha2 : CsvUtilsV2.normalizedKey a ∈ seen <;>
          simp [ha1, ha2]

lemma dedupAux_count (d : Table) (seen : List String) :
    (CsvUtilsV2.removeDuplicatesAux d seen).2
      + (CsvUtilsV2.removeDuplicatesAux d seen).1.length = d.length := by
  induction d generalizing seen with
  | nil => simp [CsvUtilsV2.removeDuplicatesAux]
  | cons row rest ih =>
    by_cases hk : CsvUtilsV2.normalizedKey row ∈ seen
    · have h := ih seen
      simp [CsvUtilsV2.removeDuplicatesAux, hk]
      omega
    · have h := ih (CsvUtilsV2.normalizedKey row :: seen)
      simp [CsvUtilsV2.removeDuplicatesAux, hk]
      omega

lemma dedupAux_sublist (d : Table) (seen : List String) :
    List.Sublist (CsvUtilsV2.removeDuplicatesAux d seen).1 d := by
  induction d generalizing seen with
  | nil => simp [CsvUtilsV2.removeDuplicatesAux]
  | cons row rest ih =>
    by_cases hk : CsvUtilsV2.normalizedKey row ∈ seen
    · have h1 : (CsvUtilsV2.removeDuplicatesAux (row :: rest) seen).1
          = (CsvUtilsV2.removeDuplicatesAux rest seen).1 := by
        simp [CsvUtilsV2.removeDuplicatesAux, hk]
      rw [h1]
      exact (ih seen).cons row
    · have h1 : (CsvUtilsV2.removeDuplicatesAux (row :: rest) seen).1
          = row :: (CsvUtilsV2.removeDuplicatesAux rest
              (CsvUtilsV2.normalizedKey row :: seen)).1 := by
        simp [CsvUtilsV2.removeDuplicatesAux, hk]
      rw [h1]
      exact (ih _).cons₂ row

lemma dedupAuxJson_sublist (d : Table) (seen : Table) :
    List.Sublist (CsvUtils.removeDuplicatesAux d seen) d := by
  induction d generalizing seen with
  | nil => simp [CsvUtils.removeDuplicatesAux]
  | cons row rest ih =>
    by_cases hk : row ∈ seen
    · have h1 : CsvUtils.removeDuplicatesAux (row :: rest) seen
          = CsvUtils.removeDuplicatesAux rest seen := by
        simp [CsvUtils.removeDuplicatesAux, hk]
      rw [h1]
      exact (ih seen).cons row
    · have h1 : CsvUtils.removeDuplicatesAux (row :: rest) seen
          = row :: CsvUtils.removeDuplicatesAux rest (row :: seen) := by
        simp [CsvUtils.removeDuplicatesAux, hk]
      rw [h1]
      exact (ih _).cons₂ row

/-- Claim C1: removeDuplicates keeps the first (non-normalized) row of
each trimmed-lowercased pipe-joined signature, drops every later row
with a seen signature, returns the number of dropped rows as its count,
and satisfies the concrete example of the spec. -/
theorem removeDuplicates_first_occurrence (d : Table) :
    (CsvUtilsV2.removeDuplicates d).1 = specDedup d
    ∧ (CsvUtilsV2.removeDuplicates d).2 + (CsvUtilsV2.removeDuplicates d).1.length = d.length
    ∧ CsvUtilsV2.removeDuplicates [["A", "1"], ["a", "1"], ["B", "2"]]
        = ([["A", "1"], ["B", "2"]], 1) := by
  refine ⟨?_, dedupAux_count d [], by decide⟩
  have h := dedupAux_fst d []
  have h0 : d.filter (fun row => CsvUtilsV2.normalizedKey row ∉ ([] : List String)) = d := by
    apply List.filter_eq_self.mpr
    intro a _
    simp
  rw [h0] at h
  exact h

/-- Claim C2: parseCSV picks the delimiter by inspecting only the first
line (semicolon when that line contains one, comma otherwise) and then
splits the header line and every data line of the file on exactly that
delimiter; the concrete example of the spec holds. -/
theorem parseCSV_delimiter_detection (text : String) :
    CsvUtilsV2.parseCSV text
      = specParseWith (if jsIncludes ((jsLines text).headD "") ';' then ';' else ',') text
    ∧ CsvUtilsV2.parseCSV "a;b\n1;2" = ([["1", "2"]], ["a", "b"]) := by
  refine ⟨?_, by decide⟩
  unfold CsvUtilsV2.parseCSV specParseWith
  rfl

/-- Claim C4: the pipeline runner applies the enabled transforms in the
fixed order removeEmptyRows, removeDuplicates, trimWhitespace,
standardizeCase (the staged composition), and each statistic equals the
count of its transform when the flag is set and zero when the transform
is skipped. -/
theorem cleanData_fixed_order (options : Cleaning.CleaningOptions)
    (headers : List String) (d : Table) :
    Cleaning.cleanData options headers d = Cleaning.stagedClean options headers d
    ∧ (Cleaning.cleanData options headers d).2.emptyRowsRemoved
        = (if options.removeEmptyRows then (CsvUtils.removeEmptyRows d).2 else 0)
    ∧ (Cleaning.cleanData options headers d).2.duplicatesRemoved
        = (if options.removeDuplicates then
            (CsvUtils.removeDuplicates
              (if options.removeEmptyRows then (CsvUtils.removeEmptyRows d).1 else d)).2
          else 0)
    ∧ (Cleaning.cleanData options headers d).2.whitespaceFixed
        = (if options.trimWhitespace then
            (CsvUtils.trimWhitespace
              (if options.removeDuplicates then
                (CsvUtils.removeDuplicates
                  (if options.removeEmptyRows then
                    (CsvUtils.removeEmptyRows d).1
                  else d)).1
              else
                (if options.removeEmptyRows then
                  (CsvUtils.removeEmptyRows d).1
                else d))).2
          else 0) := by
  obtain ⟨a, b, c, e⟩ := options
  cases a <;> cases b <;> cases c <;> cases e <;> exact ⟨rfl, rfl, rfl, rfl⟩

/-- Counterexample to claim C5 at its own input: with all four options
enabled the pipeline does not produce rows [["Alice","NYC"]] with
emptyRowsRemoved 1, duplicatesRemoved 1 and whitespaceFixed at least 1,
because parseCSV already trims every cell (so no whitespace is left to
fix) and standardizeCase lowercases the surviving row. -/
theorem endToEnd_example_as_claimed_false :
    ¬((Cleaning.cleanData ⟨true, true, true, true⟩
          (CsvUtils.parseCSV "Name,City\nAlice, NYC\nAlice,NYC\n, \n").2
          (CsvUtils.parseCSV "Name,City\nAlice, NYC\nAlice,NYC\n, \n").1).1
        = [["Alice", "NYC"]]
      ∧ (Cleaning.cleanData ⟨true, true, true, true⟩
          (CsvUtils.parseCSV "Name,City\nAlice, NYC\nAlice,NYC\n, \n").2
          (CsvUtils.parseCSV "Name,City\nAlice, NYC\nAlice,NYC\n, \n").1).2.emptyRowsRemoved = 1
      ∧ (Cleaning.cleanData ⟨true, true, true, true⟩
          (CsvUtils.parseCSV "Name,City\nAlice, NYC\nAlice,NYC\n, \n").2
          (CsvUtils.parseCSV "Name,City\nAlice, NYC\nAlice,NYC\n, \n").1).2.duplicatesRemoved = 1
      ∧ 1 ≤ (Cleaning.cleanData ⟨true, true, true, true⟩
          (CsvUtils.parseCSV "Name,City\nAlice, NYC\nAlice,NYC\n, \n").2
          (CsvUtils.parseCSV "Name,City\nAlice, NYC\nAlice,NYC\n, \n").1).2.whitespaceFixed) := by
  decide

/-- Claim C5 as amended: parsing that input and running the pipeline
with all four options enabled yields final rows [["alice","nyc"]]
(lowercased by standardizeCase), with emptyRowsRemoved 1,
duplicatesRemoved 1 and whitespaceFixed 0 (parseCSV already trimmed
every cell). -/
theorem endToEnd_example_amended :
    (Cleaning.cleanData ⟨true, true, true, true⟩
        (CsvUtils.parseCSV "Name,City\nAlice, NYC\nAlice,NYC\n, \n").2
        (CsvUtils.parseCSV "Name,City\nAlice, NYC\nAlice,NYC\n, \n").1).1
      = [["alice", "nyc"]]
    ∧ (Cleaning.cleanData ⟨true, true, true, true⟩
        (CsvUtils.parseCSV "Name,City\nAlice, NYC\nAlice,NYC\n, \n").2
        (CsvUtils.parseCSV "Name,City\nAlice, NYC\nAlice,NYC\n, \n").1).2
      = ⟨1, 0, 1⟩ := by
  decide

lemma trimCell_fst (c : Option String) :
    (CsvUtilsV2.trimCell c).1 = Option.map jsTrim c := by
  cases c with
  | none => rfl
  | some s =>
    by_cases h : s = ""
    · subst h; rfl
    · simp [CsvUtilsV2.trimCell, h]

lemma trimCell_snd (c : Option String) :
    (CsvUtilsV2.trimCell c).2 = if Option.map jsTrim c ≠ c then 1 else 0 := by
  cases c with
  | none => rfl
  | some s =>
    by_cases h : s = ""
    · subst h
      have he : jsTrim "" = "" := rfl
      simp [CsvUtilsV2.trimCell, he]
    · by_cases h2 : jsTrim s = s <;> simp [CsvUtilsV2.trimCell, h, h2]

lemma sum_map_ite_eq_length_filter {α : Type} (p : α → Prop) [DecidablePred p]
    (l : List α) :
    (l.map (fun a => if p a then 1 else 0)).sum
      = (l.filter (fun a => decide (p a))).length := by
  induction l with
  | nil => rfl
  | cons a t ih => by_cases h : p a <;> simp [h, ih] <;> omega

/-- Claim C6: trimWhitespace trims every present cell, passes a null
cell through unchanged without counting it, and its count is the number
of individual cells whose trimmed form differs from the original; the
concrete example of the spec holds. -/
theorem trimWhitespace_cells_and_count (d : List (List (Option String))) :
    (CsvUtilsV2.trimWhitespace d).1 = d.map (fun row => row.map (Option.map jsTrim))
    ∧ (CsvUtilsV2.trimWhitespace d).2
        = (d.map (fun row =>
            (row.filter (fun cell => Option.map jsTrim cell ≠ cell)).length)).sum
    ∧ CsvUtilsV2.trimWhitespace [[some " x ", some "y"]]
        = ([[some "x", some "y"]], 1) := by
  refine ⟨?_, ?_, by decide⟩
  · unfold CsvUtilsV2.trimWhitespace
    simp [trimCell_fst]
  · unfold CsvUtilsV2.trimWhitespace
    simp only
    have hrow : ∀ row : List (Option String),
        ((row.map fun c => (CsvUtilsV2.trimCell c).2).sum)
          = (row.filter (fun cell => Option.map jsTrim cell ≠ cell)).length := by
      intro row
      have hfun : (fun c => (CsvUtilsV2.trimCell c).2)
          = (fun c : Option String => if Option.map jsTrim c ≠ c then 1 else 0) :=
        funext trimCell_snd
      rw [hfun]
      exact sum_map_ite_eq_length_filter _ row
    simp [hrow]

/-- Claim C10: trimWhitespace and standardizeCase preserve the row
count and the cell count of every row, and both duplicate removal and
empty-row removal return an order-preserving subsequence of the input
rows (every output row an input row taken verbatim), hence never more
rows than the input. -/
theorem transforms_shape_invariants (d : Table) (headers : List String) :
    (CsvUtils.trimWhitespace d).1.map List.length = d.map List.length
    ∧ (CsvUtils.standardizeCase d headers).map List.length = d.map List.length
    ∧ List.Sublist (CsvUtilsV2.removeDuplicates d).1 d
    ∧ (CsvUtilsV2.removeDuplicates d).1.length ≤ d.length
    ∧ List.Sublist (CsvUtils.removeDuplicates d).1 d
    ∧ List.Sublist (CsvUtils.removeEmptyRows d).1 d
    ∧ (CsvUtils.removeEmptyRows d).1.length ≤ d.length := by
  refine ⟨?_, ?_, dedupAux_sublist d [], (dedupAux_sublist d []).length_le,
    dedupAuxJson_sublist d [], List.filter_sublist _,
    (List.filter_sublist _).length_le⟩
  · simp [CsvUtils.trimWhitespace, List.map_map, Function.comp]
  · simp [CsvUtils.standardizeCase, List.map_map, Function.comp]
